import Mathlib

/-!
Shallow embedding of the Hierarchical-Agents repository
(src/hierarchical_agents: supervisor.py, tools.py, config.py,
hierarchical_system.py, research_team.py) and proofs about its
routing, tool and configuration behaviour.
-/

/-- The langgraph terminal sentinel `END` that a graph run routes to in order
to stop; `langgraph.graph.END` is the string "__end__". -/
def END : String := "__end__"

/-- A message of the conversation state: `content` plus the optional
author-name tag langchain messages carry. -/
structure Message where
  content : String
  name : Option String
deriving DecidableEq, Repr

/-- The shapes an LLM structured-output response can take when
`supervisor_node` extracts the routing label (supervisor.py lines 46-53):
a dict whose `next` key may be present or absent, a pydantic-style object
whose `next` attribute may be present or absent, or a response whose
inspection raises an exception (caught by the `except` clause). -/
inductive LLMResponse where
  | dict (next : Option String)
  | obj (next : Option String)
  | raising
deriving DecidableEq, Repr

/-- The label extraction of supervisor.py lines 46-53: `response.get('next',
"FINISH")` for dicts, `getattr(response, 'next', "FINISH")` for objects, and
`goto = "FINISH"` when the inspection raises. -/
def extract_goto : LLMResponse → String
  | LLMResponse.dict (some s) => s
  | LLMResponse.dict none => "FINISH"
  | LLMResponse.obj (some s) => s
  | LLMResponse.obj none => "FINISH"
  | LLMResponse.raising => "FINISH"

/-- The `Command(goto=goto, update={"next": goto})` value a supervisor node
returns: the routing target and the overwritten `next` field. -/
structure SupCommand where
  goto : String
  next : String
deriving DecidableEq, Repr

/-- supervisor.py lines 39-58: the node built by `make_supervisor_node(llm,
members)`.  The `members` roster shapes only the prompt and the Router field
description; the returned label is not checked against it.  After extraction,
a label equal to "FINISH" is replaced by `END`, and the (possibly replaced)
label is used both as `goto` and as the new `next`. -/
def supervisor_node (members : List String) (response : LLMResponse) : SupCommand :=
  let g0 := extract_goto response
  let g := if g0 = "FINISH" then END else g0
  { goto := g, next := g }

/-- The `Command(update={"messages": [...]}, goto=...)` a worker node or a
team-delegation node returns. -/
structure WorkerCommand where
  updateMessages : List Message
  goto : String
deriving DecidableEq, Repr

/-- research_team.py lines 46-56, `_search_node`: invoke the search agent on
the state's messages, wrap the content of the last message of the agent's
result as one `HumanMessage(name="search")`, and go back to the supervisor.
`result["messages"][-1]` raises on an empty result, modelled as `none`. -/
def search_node (agent : List Message → List Message)
    (messages : List Message) : Option WorkerCommand :=
  match (agent messages).getLast? with
  | none => none
  | some m => some { updateMessages := [{ content := m.content, name := some "search" }],
                     goto := "supervisor" }

/-- Applying a worker command's `messages` update to the conversation state:
`MessagesState` appends the update list to the existing messages. -/
def applyMessages (state update : List Message) : List Message :=
  state ++ update

/-- Python's `messages[-1:]` slice: the one-element list holding the last
element, or `[]` on an empty list. -/
def lastSlice (l : List Message) : List Message :=
  l.drop (l.length - 1)

/-- hierarchical_system.py lines 65-76, `_call_research_team`: invoke the
research team on `state["messages"][-1:]`, wrap the content of the last
message of the team's reply as one `HumanMessage(name="research_team")`, and
go back to the supervisor.  `response["messages"][-1]` raises on an empty
reply, modelled as `none`. -/
def call_research_team (team : List Message → List Message)
    (messages : List Message) : Option WorkerCommand :=
  match (team (lastSlice messages)).getLast? with
  | none => none
  | some m => some { updateMessages := [{ content := m.content, name := some "research_team" }],
                     goto := "supervisor" }

/-- hierarchical_system.py lines 78-87, `_call_writer_team`: same as
`call_research_team` with the writing team and the name "writer_team". -/
def call_writer_team (team : List Message → List Message)
    (messages : List Message) : Option WorkerCommand :=
  match (team (lastSlice messages)).getLast? with
  | none => none
  | some m => some { updateMessages := [{ content := m.content, name := some "writer_team" }],
                     goto := "supervisor" }

/-- config.py line 29: `self.recursion_limit = 150`, the Config default. -/
def Config.recursion_limit : Nat := 150

/-- hierarchical_system.py lines 89-93 and 99-103: `run` and `run_sync` use
the caller-supplied recursion limit, or the Config default when the caller
passes none. -/
def run_limit : Option Nat → Nat
  | none => Config.recursion_limit
  | some n => n

/-- Outcome of a graph run: normal completion, or the forced stop with the
distinct exceeded-limit condition, each recording how many node executions
(super-steps) were taken. -/
inductive RunResult where
  | completed (steps : Nat)
  | limitExceeded (steps : Nat)
deriving DecidableEq, Repr

/-- Modelled from the spec: the graph executor behind `graph.stream` /
`graph.invoke` (the langgraph runtime) is not part of this repository's
sources.  Per the spec, execution starts at the supervisor node, each node
runs to completion as one step, every worker node unconditionally hands
control back to the supervisor, a supervisor decision of `END` completes the
run, and the run is forcibly stopped with a distinct exceeded-limit condition
once the configured recursion limit of steps is spent without termination.
`route i` is the goto of the supervisor's i-th decision. -/
def execGraph (route : Nat → String) : Nat → Nat → String → Nat → RunResult
  | 0, _, _, steps => RunResult.limitExceeded steps
  | fuel + 1, i, node, steps =>
    if node = "supervisor" then
      if route i = END then RunResult.completed (steps + 1)
      else execGraph route fuel (i + 1) (route i) (steps + 1)
    else execGraph route fuel i "supervisor" (steps + 1)

/-- The distinct build stages of hierarchical_system.py lines 21-53, all of
which follow the configuration check. -/
inductive BuildStage where
  | llm
  | tools
  | teams
  | graph
deriving DecidableEq, Repr

/-- config.py lines 31-34, `Config.validate`: `all(key.get_secret_value()
for key in [groq_api_key, tavily_api_key])`; a Python string is truthy
exactly when non-empty. -/
def Config.validate (groq_api_key tavily_api_key : String) : Bool :=
  decide (groq_api_key ≠ "") && decide (tavily_api_key ≠ "")

/-- hierarchical_system.py lines 21-53, `HierarchicalSystem.__init__`: the
configuration is validated first and a `ValueError` is raised on failure
before the LLM client, tools manager, teams or graph are built; on success
all four components are built.  The result pairs the list of stages that
were built with the error message, if any. -/
def HierarchicalSystem.init (groq tavily : String) : List BuildStage × Option String :=
  if Config.validate groq tavily then
    ([BuildStage.llm, BuildStage.tools, BuildStage.teams, BuildStage.graph], none)
  else
    ([], some "Missing required API keys. Please check your .env file.")

/-- Python's `str.readlines` split of a file's bytes: chunks end after each
newline, which is kept; a final chunk without a newline is kept when
non-empty.  `acc` holds the current chunk's characters in reverse. -/
def readlinesAux : List Char → List Char → List (List Char)
  | [], [] => []
  | [], acc => [acc.reverse]
  | c :: rest, acc =>
    if c = '\n' then (acc.reverse ++ ['\n']) :: readlinesAux rest []
    else readlinesAux rest (c :: acc)

/-- `file.readlines()` on a file holding `s` (tools.py line 80). -/
def readlines (s : String) : List String :=
  (readlinesAux s.data []).map (fun l => { data := l })

/-- Python's non-negative slice `l[start:stop]` with `stop=None` meaning the
end of the list. -/
def pySlice (l : List String) (start : Nat) (stop : Option Nat) : List String :=
  match stop with
  | none => l.drop start
  | some e => (l.take e).drop start

/-- tools.py lines 73-85, `read_document`: read all lines of the stored
file, default `start` to 0, and return `"\n".join(lines[start:end])`.
`stored` is the file's current byte content. -/
def read_document (stored : String) (start : Nat) (stop : Option Nat) : String :=
  String.intercalate "\n" (pySlice (readlines stored) start stop)

/-- tools.py lines 91-100, `write_document`: store `content` verbatim as the
file's bytes and return the save message. -/
def write_document (content file_name : String) : String × String :=
  ("Document saved to " ++ file_name, content)

/-- Writing a document and reading it back with default `start`/`end` and no
intervening edits. -/
def roundTrip (content file_name : String) : String :=
  read_document (write_document content file_name).2 0 none

/-- Python's `list.insert(i, x)`: insert before index `i`, appending when
`i` is at or past the end. -/
def pyInsert (l : List String) (i : Nat) (x : String) : List String :=
  match i, l with
  | 0, l => x :: l
  | _ + 1, [] => [x]
  | i + 1, a :: l => a :: pyInsert l i x

/-- Insertion into a key-sorted association list, for `sorted(inserts.items())`
(tools.py line 117); dict keys are unique, so ties cannot arise. -/
def sortInsertsInsert (p : Nat × String) : List (Nat × String) → List (Nat × String)
  | [] => [p]
  | q :: rest => if p.1 ≤ q.1 then p :: q :: rest else q :: sortInsertsInsert p rest

/-- `sorted(inserts.items())`: the insert requests ordered by line number. -/
def sortInserts : List (Nat × String) → List (Nat × String)
  | [] => []
  | p :: rest => sortInsertsInsert p (sortInserts rest)

/-- tools.py lines 119-124: the insertion loop of `edit_document`.  Each
in-range request inserts `text + "\n"` before the (1-indexed) line number
into the current lines; the first out-of-range request aborts the loop with
the error message. -/
def editLoop : List String → List (Nat × String) → Except String (List String)
  | lines, [] => Except.ok lines
  | lines, (k, text) :: rest =>
    if 1 ≤ k ∧ k ≤ lines.length + 1 then
      editLoop (pyInsert lines (k - 1) (text ++ "\n")) rest
    else
      Except.error ("Error: Line number " ++ toString k ++ " is out of range.")

/-- tools.py lines 106-130, `edit_document`: read the file's lines, run the
insertion loop over the sorted requests, and only when the whole loop
succeeds write the new lines back and return the success message; an error
returns before any write, so the result pairs the returned message with the
file's on-disk lines after the call. -/
def edit_document (lines : List String) (inserts : List (Nat × String))
    (file_name : String) : String × List String :=
  match editLoop lines (sortInserts inserts) with
  | Except.ok newLines => ("Document edited and saved to " ++ file_name, newLines)
  | Except.error e => (e, lines)

/-! Helper lemmas, shared across claims. -/

/-- `pyInsert` at an in-range index splits the list around the new element. -/
theorem pyInsert_eq_take_drop (l : List String) (i : Nat) (x : String)
    (h : i ≤ l.length) : pyInsert l i x = l.take i ++ x :: l.drop i := by
  induction l generalizing i with
  | nil =>
    cases i with
    | zero => rfl
    | succ n => simp at h
  | cons a t ih =>
    cases i with
    | zero => rfl
    | succ n =>
      simp only [pyInsert, List.take, List.drop, List.cons_append]
      rw [ih n (by simpa using h)]

/-- Any error `editLoop` produces is the out-of-range message for some line
number. -/
theorem editLoop_error_shape (ins : List (Nat × String)) (lines : List String)
    (e : String) (h : editLoop lines ins = Except.error e) :
    ∃ k : Nat, e = "Error: Line number " ++ toString k ++ " is out of range." := by
  induction ins generalizing lines with
  | nil => simp [editLoop] at h
  | cons p rest ih =>
    rcases p with ⟨k, text⟩
    by_cases hk : 1 ≤ k ∧ k ≤ lines.length + 1
    · rw [editLoop, if_pos hk] at h
      exact ih _ h
    · rw [editLoop, if_neg hk] at h
      exact ⟨k, (Except.error.inj h).symm⟩

/-- When the supervisor route never yields `END`, the executor spends all its
fuel and stops with the exceeded-limit result after exactly `fuel` further
steps. -/
theorem execGraph_no_end (route : Nat → String) (hroute : ∀ j, route j ≠ END) :
    ∀ (fuel i : Nat) (node : String) (steps : Nat),
      execGraph route fuel i node steps = RunResult.limitExceeded (steps + fuel) := by
  intro fuel
  induction fuel with
  | zero => intro i node steps; simp [execGraph]
  | succ n ih =>
    intro i node steps
    by_cases hn : node = "supervisor"
    · rw [execGraph, if_pos hn, if_neg (hroute i), ih]
      congr 1
      omega
    · rw [execGraph, if_neg hn, ih]
      congr 1
      omega

/-- `lastSlice` of a list whose last element is `m` is `[m]`. -/
theorem lastSlice_eq (l : List Message) (m : Message) (h : l.getLast? = some m) :
    lastSlice l = [m] := by
  induction l with
  | nil => simp at h
  | cons a t ih =>
    cases t with
    | nil =>
      simp [List.getLast?] at h
      simp [lastSlice, h]
    | cons b u =>
      rw [List.getLast?_cons_cons] at h
      have := ih h
      simp only [lastSlice, List.length_cons] at this ⊢
      simpa [Nat.succ_sub_one, List.drop_succ_cons] using this

/-! Claim theorems. -/

/-- Claim C1, counterexample: with the roster ["research_team",
"writer_team"], an LLM response carrying the label "garbage" makes the
supervisor emit "garbage" as the goto target, which is outside the
three-element valid set (roster together with END). -/
theorem c1_counterexample :
    (supervisor_node ["research_team", "writer_team"]
        (LLMResponse.dict (some "garbage"))).goto = "garbage" ∧
    "garbage" ∉ (END :: ["research_team", "writer_team"]) := by
  exact ⟨rfl, by decide⟩

/-- Claim C1, amended: for every roster and every LLM response whose
extracted label lies in the options set FINISH :: roster (which includes all
malformed or unparseable responses, since their label defaults to FINISH),
the supervisor's goto target lies in the valid set END :: roster; a label
outside the options set, however, is emitted verbatim. -/
theorem c1_routing_in_valid_set (members : List String) (response : LLMResponse)
    (h : extract_goto response ∈ ("FINISH" :: members)) :
    (supervisor_node members response).goto ∈ (END :: members) := by
  rcases List.mem_cons.mp h with hf | hm
  · simp [supervisor_node, hf]
  · by_cases hf : extract_goto response = "FINISH"
    · simp [supervisor_node, hf]
    · simp only [supervisor_node, if_neg hf]
      exact List.mem_cons_of_mem _ hm

/-- Claim C1, witness: a valid-label response on the top-level roster. -/
theorem c1_witness :
    extract_goto (LLMResponse.dict (some "research_team"))
        ∈ ("FINISH" :: ["research_team", "writer_team"]) ∧
    (supervisor_node ["research_team", "writer_team"]
        (LLMResponse.dict (some "research_team"))).goto
        ∈ (END :: ["research_team", "writer_team"]) :=
  ⟨by decide, c1_routing_in_valid_set ["research_team", "writer_team"]
    (LLMResponse.dict (some "research_team")) (by decide)⟩

/-- Claim C2, counterexample: an LLM response whose label "bogus" is outside
the valid set is not defaulted to END; the supervisor emits "bogus" itself as
the goto target. -/
theorem c2_counterexample :
    (supervisor_node ["research_team", "writer_team"]
        (LLMResponse.obj (some "bogus"))).goto = "bogus" ∧
    "bogus" ≠ END := by
  exact ⟨rfl, by decide⟩

/-- Claim C2, amended: an LLM response whose label cannot be extracted (the
dict key or object attribute is missing, or extraction raises) defaults to
END without error, but a present label different from FINISH — valid or not —
is passed through unchanged as the goto target, not defaulted. -/
theorem c2_unparseable_defaults_to_end (members : List String) :
    ((supervisor_node members (LLMResponse.dict none)).goto = END ∧
     (supervisor_node members (LLMResponse.obj none)).goto = END ∧
     (supervisor_node members LLMResponse.raising).goto = END) ∧
    ∀ s : String, s ≠ "FINISH" →
      (supervisor_node members (LLMResponse.dict (some s))).goto = s ∧
      (supervisor_node members (LLMResponse.obj (some s))).goto = s := by
  refine ⟨⟨rfl, rfl, rfl⟩, fun s hs => ?_⟩
  constructor
  · simp [supervisor_node, extract_goto, hs]
  · simp [supervisor_node, extract_goto, hs]

/-- Claim C2, witness: the pass-through branch at the concrete label
"web_scraper". -/
theorem c2_witness :
    ("web_scraper" ≠ "FINISH") ∧
    (supervisor_node ["search", "web_scraper"]
        (LLMResponse.dict (some "web_scraper"))).goto = "web_scraper" :=
  ⟨by decide,
   ((c2_unparseable_defaults_to_end ["search", "web_scraper"]).2
      "web_scraper" (by decide)).1⟩

/-- Claim C8, counterexample: when the supervisor's decision is FINISH, the
recorded `next` field is END ("__end__"), not the literal sentinel
"FINISH" — the reassignment `goto = END` happens before the state update is
built. -/
theorem c8_counterexample :
    (supervisor_node ["research_team", "writer_team"]
        (LLMResponse.dict (some "FINISH"))).next = END ∧
    END ≠ "FINISH" := by
  exact ⟨rfl, by decide⟩

/-- Claim C8, amended: every supervisor decision overwrites the state's
`next` field with the chosen goto target; when the decision is FINISH that
target — and hence `next` — is END ("__end__"), not the literal "FINISH";
and every worker-node visit appends exactly one message to the conversation
state. -/
theorem c8_next_overwritten (members : List String) (response : LLMResponse)
    (agent : List Message → List Message) (messages : List Message) :
    ((supervisor_node members response).next = (supervisor_node members response).goto) ∧
    (extract_goto response = "FINISH" → (supervisor_node members response).next = END) ∧
    (∀ cmd : WorkerCommand, search_node agent messages = some cmd →
      cmd.updateMessages.length = 1 ∧
      (applyMessages messages cmd.updateMessages).length = messages.length + 1) := by
  refine ⟨rfl, fun hf => by simp [supervisor_node, hf], fun cmd hcmd => ?_⟩
  rw [search_node] at hcmd
  rcases hlast : (agent messages).getLast? with _ | m
  · rw [hlast] at hcmd; exact absurd hcmd (by simp)
  · rw [hlast] at hcmd
    have := Option.some.inj hcmd
    subst this
    simp [applyMessages]

/-- Claim C8, witness: a FINISH decision records END in `next`, and a
concrete search-node visit grows a one-message state to two messages. -/
theorem c8_witness :
    (extract_goto (LLMResponse.dict (some "FINISH")) = "FINISH") ∧
    (supervisor_node ["search", "web_scraper"]
        (LLMResponse.dict (some "FINISH"))).next = END ∧
    (applyMessages [{ content := "task", name := none }]
        [{ content := "result", name := some "search" }]).length = 2 :=
  ⟨by decide,
   (c8_next_overwritten ["search", "web_scraper"] (LLMResponse.dict (some "FINISH"))
      (fun ms => ms ++ [{ content := "result", name := none }])
      [{ content := "task", name := none }]).2.1 (by decide),
   ((c8_next_overwritten ["search", "web_scraper"] (LLMResponse.dict (some "FINISH"))
      (fun ms => ms ++ [{ content := "result", name := none }])
      [{ content := "task", name := none }]).2.2
      { updateMessages := [{ content := "result", name := some "search" }],
        goto := "supervisor" } (by rfl)).2⟩

/-- Claim C3: with a supervisor that never decides END, the run stops with
the exceeded-limit result after exactly the configured number of steps — the
caller-supplied bound, or the Config default of 150 when none is given — and
that result is distinguishable from every normal completion. -/
theorem c3_recursion_limit (resp : Nat → LLMResponse) (members : List String)
    (caller : Option Nat)
    (h : ∀ i, (supervisor_node members (resp i)).goto ≠ END) :
    execGraph (fun i => (supervisor_node members (resp i)).goto)
        (run_limit caller) 0 "supervisor" 0
      = RunResult.limitExceeded (run_limit caller) ∧
    (∀ s, execGraph (fun i => (supervisor_node members (resp i)).goto)
        (run_limit caller) 0 "supervisor" 0 ≠ RunResult.completed s) ∧
    run_limit none = 150 := by
  have hmain := execGraph_no_end (fun i => (supervisor_node members (resp i)).goto) h
      (run_limit caller) 0 "supervisor" 0
  rw [Nat.zero_add] at hmain
  refine ⟨hmain, fun s hc => ?_, rfl⟩
  rw [hmain] at hc
  exact absurd hc (by simp)

/-- Claim C3, witness: a supervisor mock that always routes to
"research_team" exceeds a caller-supplied limit of 3 after exactly 3 steps. -/
theorem c3_witness :
    (∀ i : Nat, (supervisor_node ["research_team", "writer_team"]
        ((fun _ => LLMResponse.dict (some "research_team")) i)).goto ≠ END) ∧
    execGraph (fun i => (supervisor_node ["research_team", "writer_team"]
        ((fun _ => LLMResponse.dict (some "research_team")) i)).goto)
        (run_limit (some 3)) 0 "supervisor" 0
      = RunResult.limitExceeded (run_limit (some 3)) :=
  ⟨fun _ => (by decide :
      (supervisor_node ["research_team", "writer_team"]
        (LLMResponse.dict (some "research_team"))).goto ≠ END),
   (c3_recursion_limit (fun _ => LLMResponse.dict (some "research_team"))
      ["research_team", "writer_team"] (some 3)
      (fun _ => (by decide :
        (supervisor_node ["research_team", "writer_team"]
          (LLMResponse.dict (some "research_team"))).goto ≠ END))).1⟩

/-- Claim C4: writing "a\nb" and reading it back returns "a\n\nb", not the
written bytes — `read_document` joins `readlines()` chunks (which keep their
newline terminators) with an extra "\n", doubling every interior newline. -/
theorem c4_roundtrip_fails :
    roundTrip "a\nb" "doc.txt" = "a\n\nb" ∧ ("a\n\nb" : String) ≠ "a\nb" := by
  exact ⟨by decide, by decide⟩

/-- Claim C5: a single in-range insert at line k places the new text (with
the appended newline) immediately before the prior line k — appending when
k = L + 1 — leaves every other line and their order unchanged, and returns
the success message. -/
theorem c5_edit_insert (lines : List String) (k : Nat) (text file_name : String)
    (h1 : 1 ≤ k) (h2 : k ≤ lines.length + 1) :
    edit_document lines [(k, text)] file_name =
      ("Document edited and saved to " ++ file_name,
       lines.take (k - 1) ++ (text ++ "\n") :: lines.drop (k - 1)) := by
  have hsort : sortInserts [(k, text)] = [(k, text)] := rfl
  have hins : pyInsert lines (k - 1) (text ++ "\n")
      = lines.take (k - 1) ++ (text ++ "\n") :: lines.drop (k - 1) :=
    pyInsert_eq_take_drop lines (k - 1) (text ++ "\n") (by omega)
  rw [edit_document, hsort, editLoop, if_pos ⟨h1, h2⟩, editLoop, hins]

/-- Claim C5, witness: inserting "mid" at line 2 of a two-line document. -/
theorem c5_witness :
    (1 ≤ 2 ∧ 2 ≤ (["one\n", "two\n"] : List String).length + 1) ∧
    edit_document ["one\n", "two\n"] [(2, "mid")] "notes.txt" =
      ("Document edited and saved to notes.txt", ["one\n", "mid\n", "two\n"]) :=
  ⟨by decide, by
    have h := c5_edit_insert ["one\n", "two\n"] 2 "mid" "notes.txt" (by decide) (by decide)
    simpa using h⟩

/-- Claim C6: a single insert whose line number is outside [1, L + 1] makes
`edit_document` return the error string naming that line number, with the
file's lines untouched, instead of raising. -/
theorem c6_edit_out_of_range (lines : List String) (k : Nat) (text file_name : String)
    (h : k < 1 ∨ lines.length + 1 < k) :
    edit_document lines [(k, text)] file_name =
      ("Error: Line number " ++ toString k ++ " is out of range.", lines) := by
  have hsort : sortInserts [(k, text)] = [(k, text)] := rfl
  have hk : ¬ (1 ≤ k ∧ k ≤ lines.length + 1) := by omega
  rw [edit_document, hsort, editLoop, if_neg hk]

/-- Claim C6, witness: line 9 is out of range for a one-line document. -/
theorem c6_witness :
    (9 < 1 ∨ (["alpha\n"] : List String).length + 1 < 9) ∧
    edit_document ["alpha\n"] [(9, "late")] "notes.txt" =
      ("Error: Line number 9 is out of range.", ["alpha\n"]) :=
  ⟨by decide, by
    have h := c6_edit_out_of_range ["alpha\n"] 9 "late" "notes.txt" (by decide)
    simpa using h⟩

/-- Claim C7: an empty Groq key or an empty Tavily key makes construction
fail with the ValueError message before any component — LLM client, tools
manager, teams or graph — is built, and construction succeeds exactly when
both keys are non-empty, in which case all four components are built. -/
theorem c7_config_validation (groq tavily : String) :
    ((groq = "" ∨ tavily = "") →
      HierarchicalSystem.init groq tavily =
        ([], some "Missing required API keys. Please check your .env file.")) ∧
    ((HierarchicalSystem.init groq tavily).2 = none ↔ (groq ≠ "" ∧ tavily ≠ "")) ∧
    ((HierarchicalSystem.init groq tavily).2 = none →
      (HierarchicalSystem.init groq tavily).1 =
        [BuildStage.llm, BuildStage.tools, BuildStage.teams, BuildStage.graph]) := by
  refine ⟨fun h => ?_, ?_, fun h => ?_⟩
  · have hv : Config.validate groq tavily = false := by
      rcases h with h | h <;> simp [Config.validate, h]
    rw [HierarchicalSystem.init, hv]
    simp
  · by_cases hg : groq = ""
    · simp [HierarchicalSystem.init, Config.validate, hg]
    · by_cases ht : tavily = ""
      · simp [HierarchicalSystem.init, Config.validate, hg, ht]
      · simp [HierarchicalSystem.init, Config.validate, hg, ht]
  · rw [HierarchicalSystem.init] at h ⊢
    by_cases hv : Config.validate groq tavily
    · rw [if_pos hv]
    · rw [if_neg hv] at h
      exact absurd h (by simp)

/-- Claim C7, witness: an empty Tavily key fails fast; two non-empty keys
construct every component. -/
theorem c7_witness :
    HierarchicalSystem.init "groq-key" "" =
      ([], some "Missing required API keys. Please check your .env file.") ∧
    (HierarchicalSystem.init "groq-key" "tavily-key").2 = none :=
  ⟨(c7_config_validation "groq-key" "").1 (Or.inr rfl),
   ((c7_config_validation "groq-key" "tavily-key").2.1).mpr ⟨by decide, by decide⟩⟩

/-- Claim C9: whenever the insertion loop rejects some requested line number,
`edit_document` returns that error message — which is the out-of-range
message naming a line number — and the file's on-disk lines after the call
are exactly the lines from before the call: no write happens, even when
earlier inserts in the sorted order were valid. -/
theorem c9_edit_atomic_on_error (lines : List String) (inserts : List (Nat × String))
    (file_name e : String)
    (h : editLoop lines (sortInserts inserts) = Except.error e) :
    edit_document lines inserts file_name = (e, lines) ∧
    ∃ k : Nat, e = "Error: Line number " ++ toString k ++ " is out of range." := by
  refine ⟨?_, editLoop_error_shape (sortInserts inserts) lines e h⟩
  rw [edit_document, h]

/-- Claim C9, witness: on the one-line document ["a\n"], the request list
[(1, "x"), (5, "y")] has a valid first insert, yet the rejection of line 5
leaves the on-disk content unchanged at ["a\n"]. -/
theorem c9_witness :
    editLoop ["a\n"] (sortInserts [(1, "x"), (5, "y")]) =
      Except.error "Error: Line number 5 is out of range." ∧
    edit_document ["a\n"] [(1, "x"), (5, "y")] "draft.txt" =
      ("Error: Line number 5 is out of range.", ["a\n"]) :=
  ⟨by rfl,
   (c9_edit_atomic_on_error ["a\n"] [(1, "x"), (5, "y")] "draft.txt"
      "Error: Line number 5 is out of range." (by rfl)).1⟩

/-- Claim C10: the top-level team-delegation nodes invoke their team with
exactly the one-element list holding the conversation's last message — the
team never sees earlier history — and append the team's reply as one message
named after the team. -/
theorem c10_forwards_last_message (team : List Message → List Message)
    (messages : List Message) (lastMsg reply : Message)
    (hlast : messages.getLast? = some lastMsg)
    (hreply : (team [lastMsg]).getLast? = some reply) :
    lastSlice messages = [lastMsg] ∧
    call_research_team team messages =
      some { updateMessages := [{ content := reply.content, name := some "research_team" }],
             goto := "supervisor" } ∧
    call_writer_team team messages =
      some { updateMessages := [{ content := reply.content, name := some "writer_team" }],
             goto := "supervisor" } := by
  have hslice := lastSlice_eq messages lastMsg hlast
  refine ⟨hslice, ?_, ?_⟩
  · rw [call_research_team, hslice, hreply]
  · rw [call_writer_team, hslice, hreply]

/-- Claim C10, witness: with a two-message history and a team that appends a
"done" reply, only the last message is forwarded and the reply comes back as
one message named "research_team". -/
theorem c10_witness :
    ([{ content := "hi", name := none }, { content := "ask", name := none }]
        : List Message).getLast? = some { content := "ask", name := none } ∧
    call_research_team
        (fun ms => ms ++ [{ content := "done", name := none }])
        [{ content := "hi", name := none }, { content := "ask", name := none }] =
      some { updateMessages := [{ content := "done", name := some "research_team" }],
             goto := "supervisor" } :=
  ⟨by decide,
   (c10_forwards_last_message
      (fun ms => ms ++ [{ content := "done", name := none }])
      [{ content := "hi", name := none }, { content := "ask", name := none }]
      { content := "ask", name := none } { content := "done", name := none }
      (by decide) (by decide)).2.1⟩
